import Mathlib

/-!
# Shallow embedding of the merlin_command_ai reasoning / command-execution core

This file embeds, in Lean, the parts of the repository that the verified
claims are about:

* `src/commands/command_executor.py` — `DANGEROUS_PATTERNS`,
  `SAFE_COMMAND_CATEGORIES`, `CommandVerifier.is_dangerous`,
  `CommandVerifier.verify_command_with_context`, `CommandExecutor.execute_command`;
* `src/core/reasoning.py` — `ReasoningStep`, `ReasoningChain`, `ReasoningEngine`;
* `src/core/response_processor.py` — `run_reasoning_chain` and its final-response
  synthesis;
* `src/core/context_manager.py` — `ReasoningContext`, `ContextManager`;
* `src/nlp/file_search.py` — `FileSearchManager.search` (together with the index
  shape produced by `src/utils/directory_indexer.py`).

External collaborators (the subprocess, the directory-manager allowlist,
`os.getcwd()`, the user's home directory, wall-clock timestamps) are passed in
as explicit parameters, matching the interface boundary drawn in the spec.
Python strings are modeled by `String`; the embedding re-implements the exact
Python string primitives the code relies on (`str.split`, `str.strip`,
`shlex.split`, `posixpath.normpath`, `os.path.abspath`, substring tests, and
the seven fixed regular expressions of `DANGEROUS_PATTERNS`).
-/

namespace Merlin

/-! ## Python string primitives -/

/-- Python's whitespace set: the characters recognized by `str.split()`,
`str.strip()` and the regex class `\s` on `str` patterns (ASCII whitespace
plus the Unicode whitespace code points). -/
def pySpace (c : Char) : Bool :=
  c = ' ' || c = '\t' || c = '\n' || c = '\r' ||
  c.toNat = 11 || c.toNat = 12 ||
  (28 ≤ c.toNat && c.toNat ≤ 31) || c.toNat = 133 || c.toNat = 160 ||
  c.toNat = 0x1680 || (0x2000 ≤ c.toNat && c.toNat ≤ 0x200a) ||
  c.toNat = 0x2028 || c.toNat = 0x2029 || c.toNat = 0x202f ||
  c.toNat = 0x205f || c.toNat = 0x3000

/-- `needle` occurs as a contiguous sublist of `hay`. -/
def infixOf (needle hay : List Char) : Bool :=
  hay.tails.any (fun t => needle.isPrefixOf t)

/-- Python `s.startswith(pre)`.  (Structural-recursion replacement for
`String.startsWith`, so that concrete witnesses evaluate by `decide`.) -/
def pyStartsWith (s pre : String) : Bool :=
  pre.data.isPrefixOf s.data

/-- Python `s.endswith(suf)`. -/
def pyEndsWith (s suf : String) : Bool :=
  suf.data.reverse.isPrefixOf s.data.reverse

/-- Python `c in s` for a single character. -/
def charIn (c : Char) (s : String) : Bool :=
  s.data.contains c

/-- Helper for `pySplitOn`: fuel-driven scan (the fuel starts at
`length + 1`, and every step consumes at least one character). -/
def splitOnAux (sep : List Char) : Nat → List Char → List Char → List (List Char)
  | 0, _, cur => [cur.reverse]
  | _ + 1, [], cur => [cur.reverse]
  | fuel + 1, c :: rest, cur =>
    if sep.isPrefixOf (c :: rest) then
      cur.reverse :: splitOnAux sep fuel ((c :: rest).drop sep.length) []
    else splitOnAux sep fuel rest (c :: cur)

/-- Python `s.split(sep)` for a non-empty separator: split at every
(left-to-right, non-overlapping) occurrence, keeping empty fields. -/
def pySplitOn (s sep : String) : List String :=
  (splitOnAux sep.data (s.data.length + 1) s.data []).map String.mk

/-- Join a list of strings with a separator (Python `sep.join(parts)`). -/
def joinSep (sep : String) : List String → String
  | [] => ""
  | [x] => x
  | x :: xs => x ++ sep ++ joinSep sep xs

/-- Concatenate a list of strings. -/
def sjoin (l : List String) : String :=
  l.foldl (fun a b => a ++ b) ""

/-- The Python membership test `needle in hay` on strings. -/
def pyIn (needle hay : String) : Bool :=
  infixOf needle.data hay.data

/-- Helper for `wsSplit`: accumulates the current (reversed) token. -/
def wsSplitAux : List Char → List Char → List String
  | [], cur => if cur.isEmpty then [] else [String.mk cur.reverse]
  | c :: rest, cur =>
    if pySpace c then
      if cur.isEmpty then wsSplitAux rest []
      else String.mk cur.reverse :: wsSplitAux rest []
    else wsSplitAux rest (c :: cur)

/-- Python `str.split()` with no argument: split on runs of whitespace,
discarding empty fields. -/
def wsSplit (s : String) : List String :=
  wsSplitAux s.data []

/-- Strip characters satisfying `p` from both ends of a string
(Python `str.strip(chars)`). -/
def stripChars (p : Char → Bool) (s : String) : String :=
  String.mk (((s.data.dropWhile p).reverse.dropWhile p).reverse)

/-- Python `str.strip()` with no argument. -/
def pyStrip (s : String) : String := stripChars pySpace s

/-- Python `str.strip('"\'')`: strip double and single quotes from both ends. -/
def stripQuotes (s : String) : String :=
  stripChars (fun c => c = '"' || c = '\'') s

/-- Python `str.lower()` restricted to ASCII case mapping; every string the
source manipulates through `.lower()` in the claims under study is ASCII. -/
def lowerStr (s : String) : String :=
  String.mk (s.data.map Char.toLower)

/-! ## The seven `DANGEROUS_PATTERNS` regular expressions

Each Python `re.search(pattern, command)` call is compiled by hand into a
decidable matcher over the command's character list.  A `re.search` succeeds
iff the pattern matches starting at some position, hence the `tails.any`
driver in each matcher. -/

/-- After `"rm"`: match `\s+(-[rf]+\s+)?/`.  The whitespace runs can be
consumed greedily because the characters that must follow them (`-`, `r`, `f`,
`/`) are never whitespace. -/
def pat1AfterSp : List Char → Bool
  | '/' :: _ => true
  | '-' :: rest =>
    let rs := rest.takeWhile (fun c => c = 'r' || c = 'f')
    let rest' := rest.dropWhile (fun c => c = 'r' || c = 'f')
    if rs.isEmpty then false
    else
      match rest' with
      | c :: rest'' =>
        pySpace c &&
          (match rest''.dropWhile pySpace with
           | '/' :: _ => true
           | _ => false)
      | [] => false
  | _ => false

/-- One anchor position of pattern 1, `rm\s+(-[rf]+\s+)?/`. -/
def pat1At : List Char → Bool
  | 'r' :: 'm' :: c :: rest => pySpace c && pat1AfterSp (rest.dropWhile pySpace)
  | _ => false

/-- Pattern 1: `rm\s+(-[rf]+\s+)?/` — `rm` commands targeting root. -/
def pat1 (s : String) : Bool := s.data.tails.any pat1At

/-- Pattern 2: `sudo` — a plain substring test. -/
def pat2 (s : String) : Bool := pyIn "sudo" s

/-- One anchor position of pattern 3, `chmod\s+777`. -/
def pat3At : List Char → Bool
  | 'c' :: 'h' :: 'm' :: 'o' :: 'd' :: c :: rest =>
    pySpace c &&
      (match rest.dropWhile pySpace with
       | '7' :: '7' :: '7' :: _ => true
       | _ => false)
  | _ => false

/-- Pattern 3: `chmod\s+777` — overly permissive chmod. -/
def pat3 (s : String) : Bool := s.data.tails.any pat3At

/-- Pattern 4: `mkfs` — a plain substring test. -/
def pat4 (s : String) : Bool := pyIn "mkfs" s

/-- Does the list start with `/passwd`, `/shadow` or `/group`
(the tail `/(passwd|shadow|group)` of pattern 5)? -/
def sysFileAt (l : List Char) : Bool :=
  "/passwd".data.isPrefixOf l || "/shadow".data.isPrefixOf l ||
  "/group".data.isPrefixOf l

/-- Scan for `/(passwd|shadow|group)` reachable through `.*` (which may not
cross a newline). -/
def scanNoNl : List Char → Bool
  | [] => false
  | c :: rest =>
    if sysFileAt (c :: rest) then true
    else if c = '\n' then false
    else scanNoNl rest

/-- Pattern 5: `>(>)?.*/(passwd|shadow|group)` — writes to system credential
files.  For a boolean `re.search` the optional second `>` is redundant: `.*`
can absorb it, so the pattern is equivalent to `>` followed by
`.*/(passwd|shadow|group)`. -/
def pat5 (s : String) : Bool :=
  s.data.tails.any fun t =>
    match t with
    | '>' :: rest => scanNoNl rest
    | _ => false

/-- A string is in the language `\s*.*\s*` iff the core left after stripping
whitespace from both ends contains no newline (`.` does not match `\n`;
`\s` does). -/
def midsOk (l : List Char) : Bool :=
  !(((l.dropWhile pySpace).reverse.dropWhile pySpace).reverse.contains '\n')

/-- Scan for the `\s+of=/dev/` tail of pattern 6: position `j` must hold a
whitespace character directly followed by `of=/dev/`, and the prefix before
`j` must lie in `\s*.*\s*` (the first `\s+` of the pattern has already
contributed one whitespace character; the remaining `\s*` is folded into the
prefix language).  `pre` carries the reversed prefix seen so far. -/
def pat6Scan : List Char → List Char → Bool
  | _, [] => false
  | pre, c :: rest =>
    (pySpace c && "of=/dev/".data.isPrefixOf rest && midsOk pre.reverse) ||
    pat6Scan (c :: pre) rest

/-- Pattern 6: `dd\s+.*\s+of=/dev/` — direct writes to devices. -/
def pat6 (s : String) : Bool :=
  s.data.tails.any fun t =>
    match t with
    | 'd' :: 'd' :: c :: rest => pySpace c && pat6Scan [] rest
    | _ => false

/-- Pattern 7: the fork-bomb pattern `:(){:|:&};:`.  As a Python regex the
top-level `|` splits it into the branches `:(){:` (a literal `:`, an empty
group, a literal `{` — invalid as a quantifier, hence literal — and `:`) and
`:&};:`; so `re.search` succeeds iff the command contains the substring
`:{:` or the substring `:&};:`. -/
def pat7 (s : String) : Bool :=
  pyIn ":\x7b:" s || pyIn ":&\x7d;:" s

/-- `DANGEROUS_PATTERNS` from `command_executor.py`: the pattern source text
(used verbatim in the rejection reason) paired with its compiled matcher. -/
def DANGEROUS_PATTERNS : List (String × (String → Bool)) :=
  [("rm\\s+(-[rf]+\\s+)?/", pat1),
   ("sudo", pat2),
   ("chmod\\s+777", pat3),
   ("mkfs", pat4),
   (">(>)?.*/(passwd|shadow|group)", pat5),
   ("dd\\s+.*\\s+of=/dev/", pat6),
   (":()\x7b:|:&\x7d;:", pat7)]

/-- Does the command match at least one dangerous pattern? -/
def matchesDangerous (command : String) : Bool :=
  DANGEROUS_PATTERNS.any (fun p => p.2 command)

/-- The reason produced for the first matching dangerous pattern, if any. -/
def firstDangerousReason (command : String) : Option String :=
  (DANGEROUS_PATTERNS.find? (fun p => p.2 command)).map
    (fun p => "Command matches dangerous pattern: " ++ p.1)

/-! ## `CommandVerifier.is_dangerous` -/

/-- `SAFE_COMMAND_CATEGORIES` from `command_executor.py`. -/
def SAFE_COMMAND_CATEGORIES : List (String × List String) :=
  [("file_operations", ["ls", "cp", "mv", "mkdir", "touch", "cat", "head", "tail", "find", "grep"]),
   ("navigation", ["cd", "pwd"]),
   ("information", ["file", "stat", "du", "df", "wc"]),
   ("archives", ["tar", "zip", "unzip", "gzip", "gunzip"]),
   ("net_tools", ["ping", "wget", "curl"])]

/-- `command.strip().split()[0] if command.strip() else ""`: the base command
token.  `strip().split()` equals `split()`, and a whitespace-only command
yields `""`. -/
def baseCommand (command : String) : String :=
  (wsSplit command).headD ""

/-- `CommandVerifier.is_dangerous`: dangerous-pattern scan first (first match
wins), then the essential-command early allow (`mkdir`/`mv`/`cp`), then the
category allowlist (plus `echo`/`printf`), then the two heuristic rejections
(redirection into `/etc/` or `/var/`; pipe plus backgrounding tokens). -/
def is_dangerous (command : String) : Bool × String :=
  match DANGEROUS_PATTERNS.find? (fun p => p.2 command) with
  | some p => (true, "Command matches dangerous pattern: " ++ p.1)
  | none =>
    let base := baseCommand command
    if ["mkdir", "mv", "cp"].contains base then (false, "")
    else
      let inSafe := SAFE_COMMAND_CATEGORIES.any (fun cat => cat.2.contains base)
      if !inSafe && !(["echo", "printf"].contains base) then
        (true, "Command '" ++ base ++ "' is not in the allowed command list")
      else if pyIn ">" command && (pyIn "/etc/" command || pyIn "/var/" command) then
        (true, "Command attempts to write to system directories")
      else if pyIn "|" command &&
          (["nohup", "daemon", "&", "disown"].any (fun t => pyIn t command)) then
        (true, "Command attempts to background execution with pipes")
      else (false, "")

example : (is_dangerous "rm -rf /").1 = true := by decide
example : is_dangerous "ls -la" = (false, "") := by decide
example : (is_dangerous "cp a sudofile").2 = "Command matches dangerous pattern: sudo" := by decide
example : is_dangerous "mv a.txt > /etc/evil" = (false, "") := by decide
example : (is_dangerous "cat a.txt > /etc/x").2 = "Command attempts to write to system directories" := by decide
example : (is_dangerous "python x.py").1 = true := by decide
example : (is_dangerous "dd if=a of=/dev/sda").1 = true := by decide
example : pat6 "dd of=/dev/sda" = false := by decide
example : pat6 "dd  of=/dev/sda" = true := by decide
example : pat1 "rm x" = false := by decide
example : pat1 "form /x" = true := by decide
example : pat5 "echo >> /etc/passwd" = true := by decide
example : pat7 ":()\x7b :|:&\x7d;:" = true := by decide

/-! ## `shlex.split` (POSIX mode, `whitespace_split=True`, no comments)

A faithful transcription of CPython's `shlex.read_token` restricted to the
configuration `shlex.split` uses: whitespace is `' \t\r\n'`, quotes are `'`
and `"`, the escape character is `\`, and escapes are honored inside double
quotes only (where a backslash not followed by `"` or `\` is kept literally).
An unterminated quote raises `No closing quotation`; a trailing backslash
raises `No escaped character`. -/

/-- `shlex` whitespace (narrower than Python's `str.split()` whitespace). -/
def shlexWs (c : Char) : Bool :=
  c = ' ' || c = '\t' || c = '\r' || c = '\n'

/-- Tokenizer state: between tokens, inside a token, inside a quote, or just
after an escape character (carrying the quote context it came from). -/
inductive SState where
  | space : SState
  | word : SState
  | quote : Char → SState
  | escape : Option Char → SState

/-- The `shlex` state machine.  `tok` is the token accumulated so far and
`quoted` records whether the current token saw a quote (a quoted empty token
is still emitted, e.g. `''`). -/
def shlexGo : List Char → SState → List Char → Bool → List String →
    Except String (List String)
  | [], st, tok, quoted, acc =>
    match st with
    | .quote _ => .error "No closing quotation"
    | .escape _ => .error "No escaped character"
    | _ => if !tok.isEmpty || quoted then .ok (acc ++ [String.mk tok]) else .ok acc
  | c :: rest, .space, tok, quoted, acc =>
    if shlexWs c then shlexGo rest .space [] false acc
    else if c = '\\' then shlexGo rest (.escape none) tok quoted acc
    else if c = '\'' || c = '"' then shlexGo rest (.quote c) tok quoted acc
    else shlexGo rest .word (tok ++ [c]) quoted acc
  | c :: rest, .word, tok, quoted, acc =>
    if shlexWs c then shlexGo rest .space [] false (acc ++ [String.mk tok])
    else if c = '\'' || c = '"' then shlexGo rest (.quote c) tok quoted acc
    else if c = '\\' then shlexGo rest (.escape none) tok quoted acc
    else shlexGo rest .word (tok ++ [c]) quoted acc
  | c :: rest, .quote q, tok, _, acc =>
    if c = q then shlexGo rest .word tok true acc
    else if c = '\\' && q = '"' then shlexGo rest (.escape (some q)) tok true acc
    else shlexGo rest (.quote q) (tok ++ [c]) true acc
  | c :: rest, .escape none, tok, quoted, acc =>
    shlexGo rest .word (tok ++ [c]) quoted acc
  | c :: rest, .escape (some q), tok, quoted, acc =>
    let tok' := if c ≠ q && c ≠ '\\' then tok ++ ['\\', c] else tok ++ [c]
    shlexGo rest (.quote q) tok' quoted acc

/-- `shlex.split(command)`. -/
def shlexSplit (s : String) : Except String (List String) :=
  shlexGo s.data .space [] false []

instance {ε α : Type} [DecidableEq ε] [DecidableEq α] : DecidableEq (Except ε α) :=
  fun a b =>
    match a, b with
    | .ok x, .ok y =>
      if h : x = y then .isTrue (by rw [h]) else .isFalse (by simp [h])
    | .error x, .error y =>
      if h : x = y then .isTrue (by rw [h]) else .isFalse (by simp [h])
    | .ok _, .error _ => .isFalse (fun h => Except.noConfusion h)
    | .error _, .ok _ => .isFalse (fun h => Except.noConfusion h)

example : shlexSplit "mv a.txt  /tmp/x" = .ok ["mv", "a.txt", "/tmp/x"] := by decide
example : shlexSplit "mv 'a b.txt' /tmp" = .ok ["mv", "a b.txt", "/tmp"] := by decide
example : shlexSplit "touch \"a/b" = .error "No closing quotation" := by decide
example : shlexSplit "a\\ b ''" = .ok ["a b", ""] := by decide
example : shlexSplit "\"x\\y \\\" z\"" = .ok ["x\\y \" z"] := by decide

/-! ## `posixpath.normpath` / `os.path.abspath` -/

/-- `posixpath.normpath`: collapse `//` and `/./`, resolve `..` lexically,
preserving the POSIX double-slash root special case. -/
def normpath (p : String) : String :=
  if p = "" then "."
  else
    let initialSlashes : Nat :=
      if pyStartsWith p "//" && !pyStartsWith p "///" then 2
      else if pyStartsWith p "/" then 1
      else 0
    let newComps := (pySplitOn p "/").foldl
      (fun acc comp =>
        if comp = "" || comp = "." then acc
        else if comp ≠ ".." || (initialSlashes = 0 && acc.isEmpty) ||
            (!acc.isEmpty && acc.getLast? = some "..") then acc ++ [comp]
        else if !acc.isEmpty then acc.dropLast
        else acc)
      []
    let path := String.mk (List.replicate initialSlashes '/') ++
      joinSep "/" newComps
    if path = "" then "." else path

/-- `posixpath.join(a, b)` for the two-argument case `abspath` needs. -/
def pyJoin (a b : String) : String :=
  if pyStartsWith b "/" then b
  else if a = "" || pyEndsWith a "/" then a ++ b
  else a ++ "/" ++ b

/-- `os.path.abspath(p)` with the process working directory `cwd` made
explicit: join against `cwd` when relative, then normalize. -/
def abspath (cwd p : String) : String :=
  normpath (if pyStartsWith p "/" then p else pyJoin cwd p)

example : normpath "/a//b/./c/.." = "/a/b" := by decide
example : normpath "a/../../x" = "../x" := by decide
example : abspath "/home/user" "docs/../music/a.mp3" = "/home/user/music/a.mp3" := by decide
example : abspath "/h" "/a/b/" = "/a/b" := by decide

/-! ## `CommandVerifier.verify_command_with_context`

The Python `context` argument is a mutable dict; the only key the verifier
reads or writes is `approved_directories`, so the context is modeled as
`Option (List String)` (`none` = key absent).  When the key is present the
verifier appends the caller's home directory to the stored list in place;
the embedding returns the updated context alongside the verdict.  The home
directory (`os.path.expanduser("~")`) and the working directory
(`os.path.abspath` for relative paths) are parameters. -/

/-- The collaborator-supplied process environment for the verifier. -/
structure VerifyEnv where
  homeDir : String
  cwd : String
deriving DecidableEq

/-- The modeled execution context: the `approved_directories` entry, if the
key is present. -/
abbrev Ctx := Option (List String)

/-- The path-mutating verbs that trigger the context check. -/
def pathVerbs : List String := ["cp", "mv", "rm", "mkdir", "touch"]

/-- `any(cmd in command.split() for cmd in ["cp","mv","rm","mkdir","touch"])`. -/
def hasPathVerb (command : String) : Bool :=
  pathVerbs.any (fun v => (wsSplit command).contains v)

/-- The approved list after the verifier implicitly appends the home
directory (when absent). -/
def approvedWithHome (env : VerifyEnv) (approved : List String) : List String :=
  if approved.contains env.homeDir then approved else approved ++ [env.homeDir]

/-- The shell-tokenized path arguments: every token after the first that is
not a flag (`-`-prefixed) and contains a `/`. -/
def extractPaths (words : List String) : List String :=
  (words.drop 1).filter (fun w => !pyStartsWith w "-" && charIn '/' w)

/-- A relative path argument is absolutized against the working directory;
an absolute one is used as-is (the source normalizes only relative paths). -/
def resolvePath (env : VerifyEnv) (p : String) : String :=
  if pyStartsWith p "/" then p else abspath env.cwd p

/-- The resolved path equals an approved directory or lies strictly under
one (`path == d or path.startswith(d + "/")`). -/
def pathApproved (env : VerifyEnv) (approved : List String) (p : String) : Bool :=
  approved.any (fun d => resolvePath env p = d || pyStartsWith (resolvePath env p) (d ++ "/"))

/-- `CommandVerifier.verify_command_with_context`: basic `is_dangerous` check
first; then, for commands carrying a path verb, the home directory is
appended to the approved list (mutating the context entry when present) and
every extracted path argument must be approved — the first unapproved one is
cited in the rejection reason.  A `shlex` parse error is treated permissively.
Returns the (possibly mutated) context together with `(is_safe, reason)`. -/
def verify_command_with_context (env : VerifyEnv) (command : String) (ctx : Ctx) :
    Ctx × Bool × String :=
  let dr := is_dangerous command
  if dr.1 then (ctx, false, dr.2)
  else if hasPathVerb command then
    let approved := approvedWithHome env (ctx.getD [])
    let ctx' : Ctx := ctx.map (fun _ => approved)
    match shlexSplit command with
    | .error _ => (ctx', true, "")
    | .ok words =>
      match (extractPaths words).find? (fun p => !pathApproved env approved p) with
      | some p => (ctx', false, "Command targets unapproved directory: " ++ resolvePath env p)
      | none => (ctx', true, "")
  else (ctx, true, "")

example :
    verify_command_with_context ⟨"/home/user", "/home/user"⟩
      "mv /home/user/doc.txt /tmp/x" (some ["/home/user"]) =
    (some ["/home/user"], false, "Command targets unapproved directory: /tmp/x") := by decide
example :
    verify_command_with_context ⟨"/home/user", "/home/user"⟩
      "touch /home/user/a.txt" (some ["/home/user"]) =
    (some ["/home/user"], true, "") := by decide
example :
    verify_command_with_context ⟨"/home/user", "/home/user"⟩
      "mv docs/a.txt b/" (some ["/opt/x"]) =
    (some ["/opt/x", "/home/user"], true, "") := by decide
example :
    (verify_command_with_context ⟨"/home/user", "/h"⟩ "ls -la" none).2 = (true, "") := by decide

/-! ## `CommandExecutor.execute_command`

The subprocess collaborator is passed in as a `LaunchOutcome`: either the
shell ran and produced decoded `stdout`/`stderr` and an exit status, or
launching it raised an exception with a message.  The executor's process-wide
mutable state (`command_history`, `unsafe_attempt_count`) is threaded
explicitly, as is the context dict entry the verifier may mutate. -/

/-- The result dictionary built by `execute_command`. -/
structure ExecResult where
  success : Bool
  output : String
  command : String
  error : Option String
  return_code : Option Int
deriving DecidableEq, Repr

/-- What the subprocess collaborator did. -/
inductive LaunchOutcome where
  | completed (stdout stderr : String) (returncode : Int)
  | raises (msg : String)
deriving DecidableEq

/-- The executor's process-wide mutable state. -/
structure ExecState where
  command_history : List String
  unsafe_attempt_count : Nat
deriving DecidableEq, Repr

/-- `CommandExecutor.execute_command`: verify, reject (counting the unsafe
attempt) or append to history and run, classifying the outcome — non-empty
stdout wins, then non-empty stderr, then the explicit no-output marker; a
launch exception is captured into the result, never propagated. -/
def execute_command (env : VerifyEnv) (st : ExecState) (command : String)
    (ctx : Ctx) (launch : LaunchOutcome) : ExecState × Ctx × ExecResult :=
  let base : ExecResult :=
    { success := false, output := "", command := command, error := none, return_code := none }
  let v := verify_command_with_context env command ctx
  if !v.2.1 then
    ({ st with unsafe_attempt_count := st.unsafe_attempt_count + 1 }, v.1,
      { base with error := some ("Unsafe command rejected: " ++ v.2.2) })
  else
    let st' := { st with command_history := st.command_history ++ [command] }
    match launch with
    | .raises e =>
      (st', v.1, { base with error := some e, output := "Error executing command: " ++ e })
    | .completed stdout stderr rc =>
      if stdout ≠ "" then
        (st', v.1, { base with output := stdout, success := true, return_code := some rc })
      else if stderr ≠ "" then
        (st', v.1,
          { base with output := "Error: " ++ stderr, error := some stderr, return_code := some rc })
      else
        (st', v.1,
          { base with output := "Command executed successfully, but there was no output.",
                      success := true, return_code := some rc })

example :
    (execute_command ⟨"/home/u", "/home/u"⟩ ⟨[], 0⟩ "sudo ls" none
      (.completed "x" "" 0)).2.2.success = false := by decide
example :
    (execute_command ⟨"/home/u", "/home/u"⟩ ⟨[], 0⟩ "ls" none
      (.completed "a.txt\n" "" 0)).2.2 =
    { success := true, output := "a.txt\n", command := "ls", error := none,
      return_code := some 0 } := by decide

/-! ## `reasoning.py`: steps, chains and the engine

`tool_args` is a free-form Python dict; the embedding keeps exactly the
observations the core makes of it: the optional `commands` list, its
truthiness (non-empty dict), and its `str()` rendering (the final-response
synthesis substring-tests `str(step.tool_args)`).

A step result is likewise a dict; the fields the core reads are `success`,
`output`, `error` (where a present-but-`None` value renders as `"None"` and
an absent key falls back to a default) and `files` (a list of file dicts, of
which only the optional `name` key is consulted).  All result dicts the
orchestrator produces are non-empty, so a present result is truthy. -/

/-- The observations the core makes of a step's result dict.  `errorField`:
`none` = no `error` key, `some none` = key present with value `None`,
`some (some m)` = key present with message `m`.  `files` holds the optional
`name` field of each entry of the `files` key (absent key = `[]`). -/
structure StepResult where
  success : Bool
  output : String
  errorField : Option (Option String)
  files : List (Option String)
deriving DecidableEq

/-- A reasoning step (`ReasoningStep` in `reasoning.py`). -/
structure ReasoningStep where
  step_id : Nat
  description : String
  tool_name : Option String
  tool_args_commands : Option (List String)
  tool_args_repr : String
  tool_args_truthy : Bool
  result : Option StepResult
  is_completed : Bool
deriving DecidableEq

/-- A reasoning chain (`ReasoningChain`). -/
structure ReasoningChain where
  query : String
  steps : List ReasoningStep
  current_step_idx : Nat
  is_completed : Bool
  final_response : Option String
deriving DecidableEq

/-- `ReasoningChain.__init__`. -/
def ReasoningChain.mk0 (query : String) : ReasoningChain :=
  ⟨query, [], 0, false, none⟩

/-- The planning data for one step (one entry of a `plan` request). -/
structure PlanStep where
  description : String
  tool_name : Option String
  commands : Option (List String)
  args_repr : String
  args_truthy : Bool
deriving DecidableEq

/-- A freshly planned (not yet executed) step with the given id. -/
def plannedStep (i : Nat) (p : PlanStep) : ReasoningStep :=
  ⟨i, p.description, p.tool_name, p.commands, p.args_repr, p.args_truthy, none, false⟩

/-- A step carrying its recorded result (`set_result`). -/
def completedStep (i : Nat) (p : PlanStep) (r : StepResult) : ReasoningStep :=
  { plannedStep i p with result := some r, is_completed := true }

/-- `ReasoningChain.add_step`: ids are assigned sequentially from the current
length. -/
def ReasoningChain.add_step (c : ReasoningChain) (p : PlanStep) : ReasoningChain :=
  { c with steps := c.steps ++ [plannedStep c.steps.length p] }

/-- `ReasoningChain.get_current_step`. -/
def ReasoningChain.get_current_step (c : ReasoningChain) : Option ReasoningStep :=
  c.steps[c.current_step_idx]?

/-- `ReasoningChain.advance`: bump the cursor; completing the last step marks
the chain completed.  Returns the updated chain and `has_next`. -/
def ReasoningChain.advance (c : ReasoningChain) : ReasoningChain × Bool :=
  let idx := c.current_step_idx + 1
  if c.steps.length ≤ idx then
    ({ c with current_step_idx := idx, is_completed := true }, false)
  else ({ c with current_step_idx := idx }, true)

/-- `ReasoningStep.set_result` applied to the current step of a chain. -/
def ReasoningChain.setCurrentResult (c : ReasoningChain) (r : StepResult) : ReasoningChain :=
  { c with
    steps := List.modify
      (fun s => { s with result := some r, is_completed := true }) c.current_step_idx c.steps }

/-- `ReasoningChain.get_context` (the dictionary it builds, with step dicts
represented by the step structures themselves). -/
structure ChainContext where
  query : String
  completed_steps : List ReasoningStep
  current_step_idx : Nat
  is_completed : Bool
deriving DecidableEq

/-- `ReasoningChain.get_context`. -/
def ReasoningChain.get_context (c : ReasoningChain) : ChainContext :=
  ⟨c.query, (c.steps.take c.current_step_idx).filter (fun s => s.is_completed),
    c.current_step_idx, c.is_completed⟩

/-- The engine's registry of active chains (`ReasoningEngine.active_chains`),
an insertion-ordered map from chain id to chain. -/
abbrev Engine := List (String × ReasoningChain)

/-- `ReasoningEngine.get_chain`. -/
def Engine.get_chain (e : Engine) (cid : String) : Option ReasoningChain :=
  (e.find? (fun p => p.1 = cid)).map (fun p => p.2)

/-- Replace the chain stored under `cid` (Python mutates the chain object in
place through the registry reference). -/
def Engine.setChain (e : Engine) (cid : String) (c : ReasoningChain) : Engine :=
  e.map (fun p => if p.1 = cid then (p.1, c) else p)

/-- `ReasoningEngine.create_chain`; the uuid-generated fresh id is supplied
by the caller. -/
def Engine.create_chain (e : Engine) (cid : String) (query : String) : Engine :=
  e ++ [(cid, ReasoningChain.mk0 query)]

/-- The `plan` action of `handle_request`: append each planned step. -/
def Engine.plan (e : Engine) (cid : String) (ps : List PlanStep) : Engine :=
  match e.get_chain cid with
  | none => e
  | some chain => e.setChain cid (ps.foldl ReasoningChain.add_step chain)

/-- The value returned by `ReasoningEngine.execute_step`: an error dict or
the updated-context dict. -/
inductive EngineResp where
  | err (msg : String)
  | stepOk (chain_id : String) (has_next_step : Bool) (context : ChainContext)
deriving DecidableEq

/-- `ReasoningEngine.execute_step`: record the result on the current step and
advance; an unknown chain or an exhausted cursor yields an error dict and
leaves the registry untouched. -/
def Engine.execute_step (e : Engine) (cid : String) (res : StepResult) :
    Engine × EngineResp :=
  match e.get_chain cid with
  | none => (e, .err ("Chain not found: " ++ cid))
  | some chain =>
    match chain.get_current_step with
    | none => (e, .err "No current step")
    | some _ =>
      let c1 := chain.setCurrentResult res
      let a := c1.advance
      (e.setChain cid a.1, .stepOk cid a.2 a.1.get_context)

/-! ## `response_processor.run_reasoning_chain`

`execute_reasoning_step` dispatches to external tools; its behavior at step
`i` is supplied as an oracle `outcomes i`: either it returned a result dict,
or it raised an exception with a message.  The per-step `try/except` converts
a raise into a structured failure result and the loop continues; after the
loop the final response is synthesized (lines 142–213 of the source).  The
success-path synthesis can itself raise (`IndexError`/`KeyError` in the
target-directory and file-name extraction, outside any `try`), so the
embedding returns `Except`, the error carrying what the source would raise.
(The source also builds a `steps_text` list which it never uses; it is
omitted.) -/

/-- What `execute_reasoning_step` did for one step. -/
inductive StepOutcome where
  | ok (r : StepResult)
  | raises (msg : String)

/-- The result recorded for a step: the returned dict, or the structured
failure dict built in the `except` branch. -/
def stepResultOf : StepOutcome → StepResult
  | .ok r => r
  | .raises e => ⟨false, "Error ejecutando paso: " ++ e, some (some e), []⟩

/-- Did the outcome fail (raise, or return `success=False`)? -/
def stepFails : StepOutcome → Bool
  | .raises _ => true
  | .ok r => !r.success

/-- A step after `set_result`: completed, carrying the outcome's result. -/
def completedStepOf (s : ReasoningStep) (o : StepOutcome) : ReasoningStep :=
  { s with result := some (stepResultOf o), is_completed := true }

/-- The execution loop: every step is attempted in order (a failure never
breaks the loop), and each receives its result via `set_result`. -/
def runSteps (steps : List ReasoningStep) (outcomes : Nat → StepOutcome) :
    List ReasoningStep :=
  steps.enum.map (fun p => completedStepOf p.2 (outcomes p.1))

/-- `step.result.get("success", False)`.  (On a completed step the execution
loop always has set a result; a completed step with `result=None` would make
the source raise `AttributeError` and cannot arise from the loop.) -/
def stepSuccess (s : ReasoningStep) : Bool :=
  match s.result with
  | some r => r.success
  | none => false

/-- `all(step.result.get("success", False) for step in chain.steps if step.is_completed)`. -/
def allSuccess (steps : List ReasoningStep) : Bool :=
  steps.all (fun s => !s.is_completed || stepSuccess s)

/-- The 1-based indices of completed-but-failed steps (source line 199). -/
def failedIndices (steps : List ReasoningStep) : List Nat :=
  (steps.enum.filter (fun p => p.2.is_completed && !stepSuccess p.2)).map (fun p => p.1 + 1)

/-- Render `step.result.get("error", "Error desconocido")` inside the
f-string: an absent key falls back to the default, a present `None` renders
as `"None"`, a present message renders as itself. -/
def errText : Option (Option String) → String
  | none => "Error desconocido"
  | some none => "None"
  | some (some m) => m

/-- The error surfaced from the first completed-but-failed step
(source lines 205–210). -/
def firstError (steps : List ReasoningStep) : String :=
  match steps.find? (fun s => s.is_completed && !stepSuccess s) with
  | some s =>
    match s.result with
    | some r => errText r.errorField
    | none => "Error desconocido"
  | none => ""

/-- `cmd.split("mkdir")[1].strip().split()[-1].strip('"\'')` (source line
177); an empty remainder raises `IndexError`. -/
def mkdirTarget (cmd : String) : Except String String :=
  match (pySplitOn cmd "mkdir").get? 1 with
  | none => .error "IndexError: list index out of range"
  | some seg =>
    match (wsSplit (pyStrip seg)).getLast? with
    | none => .error "IndexError: list index out of range"
    | some w => .ok (stripQuotes w)

/-- `cmd.split("-t")[1].strip().split()[0].strip('"\'')` (source line 179). -/
def mvTTarget (cmd : String) : Except String String :=
  match (pySplitOn cmd "-t").get? 1 with
  | none => .error "IndexError: list index out of range"
  | some seg =>
    match (wsSplit (pyStrip seg)).head? with
    | none => .error "IndexError: list index out of range"
    | some w => .ok (stripQuotes w)

/-- The target-directory extraction over `move_step.tool_args["commands"]`
(source lines 171–179): later matching commands overwrite earlier ones. -/
def extractTargetDir (moveStep : Option ReasoningStep) : Except String (Option String) :=
  match moveStep with
  | none => .ok none
  | some ms =>
    if ms.tool_args_truthy then
      match ms.tool_args_commands with
      | some cmds =>
        cmds.foldlM
          (fun td cmd =>
            if pyIn "mkdir" cmd then do
              let t ← mkdirTarget cmd
              pure (some t)
            else if pyIn "mv" cmd && pyIn "-t" cmd then do
              let t ← mvTTarget cmd
              pure (some t)
            else pure td)
          none
      | none => .ok none
    else .ok none

/-- The all-steps-succeeded branch of the final-response synthesis
(source lines 160–196). -/
def successResponse (query : String) (steps : List ReasoningStep) : Except String String :=
  let base := "He completado tu solicitud: '" ++ query ++ "'\n\n"
  if pyIn "buscar" (lowerStr query) && pyIn "mover" (lowerStr query) then
    match steps.find? (fun s => s.tool_name = some "search_files") with
    | some ss =>
      match ss.result with
      | some r =>
        if 0 < r.files.length then do
          let moveStep := steps.find?
            (fun s => pyIn "mover" (lowerStr s.description) || pyIn "mv" s.tool_args_repr)
          let td ← extractTargetDir moveStep
          let head :=
            if (td.getD "") ≠ "" then
              "He organizado " ++ toString r.files.length ++ " archivos en la carpeta " ++
                td.getD "" ++ ".\n\n"
            else
              "He encontrado y movido " ++ toString r.files.length ++
                " archivos según tu solicitud.\n\n"
          if r.files.length ≤ 5 then
            .ok (head ++ "Archivos procesados:\n" ++
              sjoin (r.files.enum.map
                (fun p => toString (p.1 + 1) ++ ". " ++ p.2.getD "archivo desconocido" ++ "\n")))
          else
            match r.files.get? 0, r.files.get? 1 with
            | some (some n0), some (some n1) =>
              .ok (head ++ "Algunos de los archivos procesados: " ++ n0 ++ ", " ++ n1 ++ ", ...")
            | _, _ => .error "KeyError: 'name'"
        else .ok base
      | none => .ok base
    | none => .ok base
  else .ok ("He completado tu solicitud: '" ++ query ++ "'")

/-- The final-response synthesis (source lines 142–213), given the state of
the steps after the execution loop. -/
def synthesize (query : String) (steps : List ReasoningStep) : Except String String :=
  if allSuccess steps then successResponse query steps
  else
    let failed := failedIndices steps
    if !failed.isEmpty then
      .ok ("No pude completar tu solicitud. Hubo problemas en los pasos " ++
        joinSep ", " (failed.map toString) ++ ".\n\n" ++ "Error: " ++ firstError steps)
    else .ok ("He completado tu solicitud: '" ++ query ++ "'\n\n")

/-- `run_reasoning_chain`: look the chain up, execute every step (recording
per-step results, converting raises into failure results), mark the chain
completed, and synthesize the final response unless the chain already carries
a truthy one (`if not chain.final_response`, so `None` and `""` both
trigger synthesis). -/
def run_reasoning_chain (e : Engine) (cid : String) (outcomes : Nat → StepOutcome) :
    Except String (Engine × String) :=
  match e.get_chain cid with
  | none => .ok (e, "Error: Reasoning chain not found.")
  | some chain =>
    let steps' := runSteps chain.steps outcomes
    let c1 := { chain with
                steps := steps', current_step_idx := chain.steps.length, is_completed := true }
    if c1.final_response.getD "" = "" then
      match synthesize c1.query steps' with
      | .error ex => .error ex
      | .ok final =>
        .ok (Engine.setChain e cid { c1 with final_response := some final }, final)
    else .ok (Engine.setChain e cid c1, c1.final_response.getD "")

/-! ## `context_manager.py`

`ReasoningContext.set` always builds a fresh `ContextEntry` (access count 0);
entries live in an insertion-ordered map.  The entry's wall-clock timestamp
and free-form metadata dict are collaborator noise the claims never read and
are omitted from the entry model.  The default seeding reads the
directory-manager collaborator (`get_all_directories()`) and `os.getcwd()`,
both supplied through `CollabEnv`. -/

/-- The values stored in the context entries the claims read. -/
inductive CtxVal where
  | strList (l : List String)
  | str (s : String)
deriving DecidableEq

/-- A context entry (`ContextEntry`), minus timestamp/metadata. -/
structure ContextEntry where
  key : String
  value : CtxVal
  source : String
  access_count : Nat
deriving DecidableEq

/-- A per-chain reasoning context (`ReasoningContext`). -/
structure ReasoningContext where
  chain_id : String
  entries : List (String × ContextEntry)
deriving DecidableEq

/-- `ReasoningContext.set`: overwrite in place or insert at the end, always
with a fresh entry. -/
def ReasoningContext.set (c : ReasoningContext) (key : String) (v : CtxVal)
    (source : String) : ReasoningContext :=
  if (c.entries.find? (fun p => p.1 = key)).isSome then
    { c with entries :=
        c.entries.map (fun p => if p.1 = key then (key, ⟨key, v, source, 0⟩) else p) }
  else { c with entries := c.entries ++ [(key, ⟨key, v, source, 0⟩)] }

/-- Look up the value stored under a key. -/
def ReasoningContext.lookup (c : ReasoningContext) (key : String) : Option CtxVal :=
  (c.entries.find? (fun p => p.1 = key)).map (fun p => p.2.value)

/-- The collaborator environment consulted when a context is created. -/
structure CollabEnv where
  allDirectories : List String
  cwd : String
deriving DecidableEq

/-- `ReasoningContext.__init__` / `initialize_default_context`: a fresh
context seeded with `approved_directories` and `current_directory`. -/
def initialize_default_context (env : CollabEnv) (cid : String) : ReasoningContext :=
  ((ReasoningContext.mk cid []).set "approved_directories"
      (.strList env.allDirectories) "system").set "current_directory" (.str env.cwd) "system"

/-- The process-wide registry of contexts (`ContextManager`). -/
structure ContextManager where
  contexts : List (String × ReasoningContext)
deriving DecidableEq

/-- `ContextManager.get_context`: get-or-create, never a not-found error. -/
def ContextManager.get_context (env : CollabEnv) (m : ContextManager) (cid : String) :
    ContextManager × ReasoningContext :=
  match (m.contexts.find? (fun p => p.1 = cid)).map (fun p => p.2) with
  | some c => (m, c)
  | none =>
    let c := initialize_default_context env cid
    (⟨m.contexts ++ [(cid, c)]⟩, c)

/-! ## `file_search.py`: `FileSearchManager.search`

The persisted vector-store configuration and the directory indexer's
snapshots are modeled by explicit state values.  A directory-index snapshot
(built by `directory_indexer.index_directory`) always carries `files` and
`directories` lists; of a directory record the search code reads only
`path`. -/

/-- One file record of a directory-index snapshot (the fields `search`
projects into its results). -/
structure FileInfo where
  name : String
  path : String
  category : String
  size : Nat
  modified : String
deriving DecidableEq

/-- One directory record of a snapshot (only `path` is read by `search`). -/
structure DirRecord where
  path : String
deriving DecidableEq

/-- A directory-index snapshot. -/
structure DirIndex where
  path : String
  files : List FileInfo
  directories : List DirRecord
deriving DecidableEq

/-- The per-store configuration (`vector_stores[name]`): its generated id and
registered directories. -/
structure StoreInfo where
  id : String
  directories : List String
deriving DecidableEq

/-- `FileSearchManager.vector_stores`. -/
structure FileSearchState where
  vector_stores : List (String × StoreInfo)
deriving DecidableEq

/-- `directory_indexer.indexed_directories`, keyed by absolute path. -/
abbrev IndexerState := List (String × DirIndex)

/-- `DirectoryIndexer.get_directory_index`: absolutize, then look up. -/
def get_directory_index (env : CollabEnv) (ix : IndexerState) (p : String) :
    Option DirIndex :=
  (ix.find? (fun q => q.1 = abspath env.cwd p)).map (fun q => q.2)

/-- The `results` list `search` accumulates (source lines 364–405): only the
first registered directory's snapshot is consulted; file names are matched
case-insensitively against the query; if none match, directories recorded in
that snapshot whose paths contain the query contribute every file whose path
extends theirs. -/
def searchResults (env : CollabEnv) (ix : IndexerState) (fs : FileSearchState)
    (query store : String) : List FileInfo :=
  match (fs.vector_stores.find? (fun p => p.1 = store)).map (fun p => p.2) with
  | none => []
  | some info =>
    match info.directories.head? with
    | none => []
    | some d0 =>
      match get_directory_index env ix d0 with
      | none => []
      | some dirIndex =>
        let ql := lowerStr query
        let nameMatches := dirIndex.files.filter (fun f => pyIn ql (lowerStr f.name))
        if !nameMatches.isEmpty then nameMatches
        else
          (dirIndex.directories.filter (fun d => pyIn ql (lowerStr d.path))).flatMap
            (fun d => dirIndex.files.filter (fun f => pyStartsWith f.path d.path))

/-- The prose `result_text` built from the results (source lines 409–420);
only the first five results are listed. -/
def resultText (query : String) (results : List FileInfo) (directories : List String) :
    String :=
  if !results.isEmpty then
    "I found " ++ toString results.length ++ " files related to '" ++ query ++ "':\n\n" ++
    sjoin ((results.take 5).enum.map
      (fun p =>
        toString (p.1 + 1) ++ ". " ++ p.2.name ++ " (" ++ p.2.category ++ ")\n" ++
        "   Located at: " ++ p.2.path ++ "\n" ++
        "   Size: " ++ toString p.2.size ++ " bytes, Modified: " ++ p.2.modified ++ "\n\n"))
  else
    "I couldn't find any files related to '" ++ query ++ "' in your indexed directories.\n" ++
    "The following directories were searched:\n" ++
    sjoin (directories.map (fun d => "- " ++ d ++ "\n"))

/-- What `search` returns: the error dict, or the success dict (whose mock
response wraps `result_text`). -/
inductive SearchRet where
  | err (msg : String)
  | success (response_text : String) (vector_store_name : String)
deriving DecidableEq

/-- `FileSearchManager.search`.  `maxResults` is accepted and ignored, as in
the source (the text itself caps at five entries). -/
def search (env : CollabEnv) (ix : IndexerState) (fs : FileSearchState)
    (query store : String) (_maxResults : Nat) : SearchRet :=
  match (fs.vector_stores.find? (fun p => p.1 = store)).map (fun p => p.2) with
  | none => .err ("Vector store not found: " ++ store)
  | some info =>
    .success (resultText query (searchResults env ix fs query store) info.directories) store

/-! # Theorems for the claims -/

/-- C4: every command matching one of the fixed dangerous patterns is
classified dangerous, with the reason naming the first matching pattern —
the pattern scan precedes the essential-command allowance and every other
allow rule, so allowlist membership of the base command is irrelevant. -/
theorem dangerous_patterns_precede_allow_rules (command : String)
    (h : matchesDangerous command = true) :
    (is_dangerous command).1 = true ∧
    some (is_dangerous command).2 = firstDangerousReason command := by
  have hs : (DANGEROUS_PATTERNS.find? (fun p => p.2 command)).isSome := by
    rw [List.find?_isSome]
    obtain ⟨p, hp, hm⟩ := List.any_eq_true.mp h
    exact ⟨p, hp, hm⟩
  obtain ⟨p, hp⟩ := Option.isSome_iff_exists.mp hs
  unfold is_dangerous firstDangerousReason
  rw [hp]
  exact ⟨rfl, rfl⟩

/-- Witness for C4 at a command whose base (`cp`) is in the essential
allowlist but which contains `sudo` as a substring. -/
theorem dangerous_patterns_precede_allow_rules_witness :
    matchesDangerous "cp a sudofile" = true ∧
    ((is_dangerous "cp a sudofile").1 = true ∧
      some (is_dangerous "cp a sudofile").2 = firstDangerousReason "cp a sudofile") :=
  ⟨by decide, dangerous_patterns_precede_allow_rules "cp a sudofile" (by decide)⟩

/-- C8 counterexample: `mv a.txt > /etc/evil` matches no dangerous pattern,
contains `>` and `/etc/`, yet `is_dangerous` allows it — the essential-command
early return for `mv` skips the heuristic rejections, contradicting the claim
that the essential allowance bypasses only the category allowlist. -/
theorem essential_bypasses_heuristics_counterexample :
    matchesDangerous "mv a.txt > /etc/evil" = false ∧
    pyIn ">" "mv a.txt > /etc/evil" = true ∧
    pyIn "/etc/" "mv a.txt > /etc/evil" = true ∧
    is_dangerous "mv a.txt > /etc/evil" = (false, "") := by decide

/-- C8 (amended): for a command matching no dangerous pattern, whose base
command is not in the essential set `mkdir`/`mv`/`cp` but is allowlisted (or
`echo`/`printf`), `is_dangerous` rejects it when it contains `>` together
with `/etc/` or `/var/`, and otherwise when it contains `|` together with one
of `nohup`/`daemon`/`&`/`disown`; the essential-command allowance bypasses
these heuristic rejections as well as the category allowlist. -/
theorem heuristic_rejections (command : String)
    (hm : matchesDangerous command = false)
    (hb : (["mkdir", "mv", "cp"].contains (baseCommand command)) = false)
    (hs : (SAFE_COMMAND_CATEGORIES.any (fun cat => cat.2.contains (baseCommand command)) ||
           (["echo", "printf"].contains (baseCommand command))) = true) :
    ((pyIn ">" command && (pyIn "/etc/" command || pyIn "/var/" command)) = true →
      is_dangerous command = (true, "Command attempts to write to system directories")) ∧
    ((pyIn ">" command && (pyIn "/etc/" command || pyIn "/var/" command)) = false →
      (pyIn "|" command &&
        (["nohup", "daemon", "&", "disown"].any (fun t => pyIn t command))) = true →
      is_dangerous command = (true, "Command attempts to background execution with pipes")) := by
  have hfind : DANGEROUS_PATTERNS.find? (fun p => p.2 command) = none :=
    List.find?_eq_none.mpr (List.any_eq_false.mp hm)
  have hcond :
      (!(SAFE_COMMAND_CATEGORIES.any (fun cat => cat.2.contains (baseCommand command))) &&
        !(["echo", "printf"].contains (baseCommand command))) = false := by
    rw [← Bool.not_or, hs]; rfl
  constructor
  · intro h1
    unfold is_dangerous
    rw [hfind]
    simp only [hb, hcond, h1, Bool.false_eq_true, if_false, if_true]
  · intro h1 h2
    unfold is_dangerous
    rw [hfind]
    simp only [hb, hcond, h1, h2, Bool.false_eq_true, if_false, if_true]

/-- Witness for C8 (amended) at an allowlisted base command (`cat`), one
input per heuristic. -/
theorem heuristic_rejections_witness :
    is_dangerous "cat a.txt > /etc/x" =
      (true, "Command attempts to write to system directories") ∧
    is_dangerous "cat b.txt | nohup run" =
      (true, "Command attempts to background execution with pipes") := by
  constructor
  · exact (heuristic_rejections "cat a.txt > /etc/x"
      (by decide) (by decide) (by decide)).1 (by decide)
  · exact (heuristic_rejections "cat b.txt | nohup run"
      (by decide) (by decide) (by decide)).2 (by decide) (by decide)

/-- C5: for a command that passes safety verification, `execute_command`
classifies the subprocess outcome — non-empty stdout gives success with the
stdout as output; otherwise non-empty stderr gives failure with a formatted
error output and the stderr in the error field; otherwise success with the
explicit no-output marker — and a launch exception is returned as a result
with the exception message in the error field rather than propagated. -/
theorem execute_outcome_classification (env : VerifyEnv) (st : ExecState)
    (command : String) (ctx : Ctx)
    (h : (verify_command_with_context env command ctx).2.1 = true) :
    (∀ stdout stderr rc,
      (stdout ≠ "" →
        (execute_command env st command ctx (.completed stdout stderr rc)).2.2 =
          { success := true, output := stdout, command := command, error := none,
            return_code := some rc }) ∧
      (stdout = "" → stderr ≠ "" →
        (execute_command env st command ctx (.completed stdout stderr rc)).2.2 =
          { success := false, output := "Error: " ++ stderr, command := command,
            error := some stderr, return_code := some rc }) ∧
      (stdout = "" → stderr = "" →
        (execute_command env st command ctx (.completed stdout stderr rc)).2.2 =
          { success := true,
            output := "Command executed successfully, but there was no output.",
            command := command, error := none, return_code := some rc })) ∧
    (∀ msg,
      (execute_command env st command ctx (.raises msg)).2.2 =
        { success := false, output := "Error executing command: " ++ msg,
          command := command, error := some msg, return_code := none }) := by
  constructor
  · intro stdout stderr rc
    refine ⟨?_, ?_, ?_⟩
    · intro h1
      simp [execute_command, h, h1]
    · intro h1 h2
      simp [execute_command, h, h1, h2]
    · intro h1 h2
      simp [execute_command, h, h1, h2]
  · intro msg
    simp [execute_command, h]

/-- Witness for C5 at `pwd` (passes verification) with a produced-output run
and a failed launch. -/
theorem execute_outcome_classification_witness :
    (execute_command ⟨"/home/u", "/home/u"⟩ ⟨[], 0⟩ "pwd" none
        (.completed "/home/u\n" "" 0)).2.2 =
      { success := true, output := "/home/u\n", command := "pwd", error := none,
        return_code := some 0 } ∧
    (execute_command ⟨"/home/u", "/home/u"⟩ ⟨[], 0⟩ "pwd" none
        (.raises "launch failed")).2.2 =
      { success := false, output := "Error executing command: launch failed",
        command := "pwd", error := some "launch failed", return_code := none } := by
  have h := execute_outcome_classification ⟨"/home/u", "/home/u"⟩ ⟨[], 0⟩ "pwd" none (by decide)
  exact ⟨(h.1 "/home/u\n" "" 0).1 (by decide), h.2 "launch failed"⟩

/-- C6: a rejected command yields a failure result naming the rejection
reason, no execution happens (the result is independent of the subprocess
outcome), the history log is untouched and the unsafe-attempt counter is
incremented by exactly one; an accepted command is appended to the history
(and the counter is untouched). -/
theorem rejection_semantics (env : VerifyEnv) (st : ExecState) (command : String)
    (ctx : Ctx) (launch : LaunchOutcome) :
    ((verify_command_with_context env command ctx).2.1 = false →
      (execute_command env st command ctx launch).2.2.success = false ∧
      (execute_command env st command ctx launch).2.2.error =
        some ("Unsafe command rejected: " ++
          (verify_command_with_context env command ctx).2.2) ∧
      (execute_command env st command ctx launch).1.command_history =
        st.command_history ∧
      (execute_command env st command ctx launch).1.unsafe_attempt_count =
        st.unsafe_attempt_count + 1 ∧
      (∀ launch', execute_command env st command ctx launch' =
        execute_command env st command ctx launch)) ∧
    ((verify_command_with_context env command ctx).2.1 = true →
      (execute_command env st command ctx launch).1.command_history =
        st.command_history ++ [command] ∧
      (execute_command env st command ctx launch).1.unsafe_attempt_count =
        st.unsafe_attempt_count) := by
  constructor
  · intro h
    refine ⟨?_, ?_, ?_, ?_, fun launch' => ?_⟩ <;> simp [execute_command, h]
  · intro h
    cases launch with
    | raises msg => simp [execute_command, h]
    | completed stdout stderr rc =>
      by_cases h1 : stdout = "" <;> by_cases h2 : stderr = "" <;>
        simp [execute_command, h, h1, h2]

/-- Witness for C6: `sudo ls` is rejected (history kept, counter bumped to 4),
`pwd` is accepted and appended to the history. -/
theorem rejection_semantics_witness :
    (execute_command ⟨"/h", "/h"⟩ ⟨["old"], 3⟩ "sudo ls" none
        (.completed "x" "" 0)).2.2.success = false ∧
    (execute_command ⟨"/h", "/h"⟩ ⟨["old"], 3⟩ "sudo ls" none
        (.completed "x" "" 0)).1.command_history = ["old"] ∧
    (execute_command ⟨"/h", "/h"⟩ ⟨["old"], 3⟩ "sudo ls" none
        (.completed "x" "" 0)).1.unsafe_attempt_count = 4 ∧
    (execute_command ⟨"/h", "/h"⟩ ⟨["old"], 3⟩ "pwd" none
        (.completed "x" "" 0)).1.command_history = ["old", "pwd"] := by
  have h1 := (rejection_semantics ⟨"/h", "/h"⟩ ⟨["old"], 3⟩ "sudo ls" none
    (.completed "x" "" 0)).1 (by decide)
  have h2 := (rejection_semantics ⟨"/h", "/h"⟩ ⟨["old"], 3⟩ "pwd" none
    (.completed "x" "" 0)).2 (by decide)
  exact ⟨h1.1, h1.2.2.1, h1.2.2.2.1, h2.1⟩

/-- C1 counterexample: `rm /home/user/notes.txt`, whose only path argument is
inside the approved directory `/home/user`, is claimed safe, but the verifier
rejects it — the dangerous-pattern pre-check (`rm` targeting an absolute
path) fires before the path-scoping logic ever runs. -/
theorem path_scoping_counterexample :
    hasPathVerb "rm /home/user/notes.txt" = true ∧
    shlexSplit "rm /home/user/notes.txt" = .ok ["rm", "/home/user/notes.txt"] ∧
    ((extractPaths ["rm", "/home/user/notes.txt"]).all
      (fun p => pathApproved ⟨"/home/user", "/home/user"⟩
        (approvedWithHome ⟨"/home/user", "/home/user"⟩ ["/home/user"]) p)) = true ∧
    (verify_command_with_context ⟨"/home/user", "/home/user"⟩ "rm /home/user/notes.txt"
      (some ["/home/user"])).2.1 = false := by decide

/-- C1 (amended): for a command carrying one of the verbs
`cp`/`mv`/`rm`/`mkdir`/`touch` as a whitespace token which additionally
passes the basic danger classification, and whose shell tokenization
succeeds: if every non-flag `/`-containing argument resolves (relative paths
absolutized against the working directory) to equal or sit under an approved
directory or the home directory, the verifier accepts; if any resolves
outside all of them, the verifier rejects, citing the first such resolved
path. -/
theorem path_scoping (env : VerifyEnv) (command : String) (l : List String)
    (words : List String)
    (hverb : hasPathVerb command = true)
    (hd : (is_dangerous command).1 = false)
    (hsplit : shlexSplit command = .ok words) :
    ((extractPaths words).all
        (fun p => pathApproved env (approvedWithHome env l) p) = true →
      (verify_command_with_context env command (some l)).2 = (true, "")) ∧
    ((extractPaths words).any
        (fun p => !pathApproved env (approvedWithHome env l) p) = true →
      ∃ p,
        (extractPaths words).find?
          (fun q => !pathApproved env (approvedWithHome env l) q) = some p ∧
        (verify_command_with_context env command (some l)).2 =
          (false, "Command targets unapproved directory: " ++ resolvePath env p)) := by
  constructor
  · intro hall
    have hnone : (extractPaths words).find?
        (fun q => !pathApproved env (approvedWithHome env l) q) = none := by
      rw [List.find?_eq_none]
      intro x hx
      rw [List.all_eq_true] at hall
      simp [hall x hx]
    simp only [verify_command_with_context, hd, Bool.false_eq_true, if_false, hverb,
      if_true, hsplit, Option.getD_some]
    rw [hnone]
  · intro hany
    have hsome : ((extractPaths words).find?
        (fun q => !pathApproved env (approvedWithHome env l) q)).isSome := by
      rw [List.find?_isSome]
      obtain ⟨x, hx, hpx⟩ := List.any_eq_true.mp hany
      exact ⟨x, hx, hpx⟩
    obtain ⟨p, hp⟩ := Option.isSome_iff_exists.mp hsome
    refine ⟨p, hp, ?_⟩
    simp only [verify_command_with_context, hd, Bool.false_eq_true, if_false, hverb,
      if_true, hsplit, Option.getD_some]
    rw [hp]

/-- Witness for C1 (amended): `touch` inside the approved directory is
accepted; `touch /opt/x.txt` outside it is rejected citing the path. -/
theorem path_scoping_witness :
    (verify_command_with_context ⟨"/home/user", "/home/user"⟩ "touch /home/user/a.txt"
      (some ["/home/user"])).2 = (true, "") ∧
    (verify_command_with_context ⟨"/home/user", "/home/user"⟩ "touch /opt/x.txt"
      (some ["/home/user"])).2 =
      (false, "Command targets unapproved directory: /opt/x.txt") := by
  constructor
  · exact (path_scoping ⟨"/home/user", "/home/user"⟩ "touch /home/user/a.txt"
      ["/home/user"] ["touch", "/home/user/a.txt"]
      (by decide) (by decide) (by decide)).1 (by decide)
  · obtain ⟨p, hp, he⟩ := (path_scoping ⟨"/home/user", "/home/user"⟩ "touch /opt/x.txt"
      ["/home/user"] ["touch", "/opt/x.txt"] (by decide) (by decide) (by decide)).2 (by decide)
    have hpv : p = "/opt/x.txt" := by
      have h2 : (extractPaths ["touch", "/opt/x.txt"]).find?
          (fun q => !pathApproved ⟨"/home/user", "/home/user"⟩
            (approvedWithHome ⟨"/home/user", "/home/user"⟩ ["/home/user"]) q) =
          some "/opt/x.txt" := by decide
      rw [hp] at h2
      exact Option.some.inj h2
    rw [he, hpv]
    rfl

/-- C9 counterexample: `sudo cp a b` carries `cp` as a token and the context
list lacks the home directory, yet the verifier leaves the context untouched —
the basic danger check (`sudo`) returns before the home-appending code runs,
so the claimed unconditional mutation does not happen. -/
theorem home_append_counterexample :
    hasPathVerb "sudo cp a b" = true ∧
    (["/tmp/ok"].contains "/home/user") = false ∧
    (verify_command_with_context ⟨"/home/user", "/home/user"⟩ "sudo cp a b"
      (some ["/tmp/ok"])).1 = some ["/tmp/ok"] := by decide

/-- C9 (amended): on a command carrying a path verb that passes the basic
danger classification, when the context's `approved_directories` entry lacks
the home directory, the verifier appends the home directory to that entry in
place — whatever the tokenization or path checks later decide, the caller's
context permanently contains the home directory afterwards. -/
theorem home_appended_in_place (env : VerifyEnv) (command : String) (l : List String)
    (hverb : hasPathVerb command = true)
    (hd : (is_dangerous command).1 = false)
    (hhome : l.contains env.homeDir = false) :
    (verify_command_with_context env command (some l)).1 = some (l ++ [env.homeDir]) := by
  have happ : approvedWithHome env l = l ++ [env.homeDir] := by
    simp only [approvedWithHome, hhome, Bool.false_eq_true, if_false]
  simp only [verify_command_with_context, hd, Bool.false_eq_true, if_false, hverb, if_true,
    Option.getD_some, Option.map_some', happ]
  cases hs : shlexSplit command with
  | error e => simp [hs]
  | ok words =>
    cases hf : (extractPaths words).find?
        (fun p => !pathApproved env (l ++ [env.homeDir]) p) with
    | none => simp [hs, hf]
    | some p => simp [hs, hf]

/-- Witness for C9 (amended): after verifying `cp a b` against a context
approving only `/tmp/ok`, the entry also contains the home directory. -/
theorem home_appended_in_place_witness :
    (verify_command_with_context ⟨"/home/user", "/home/user"⟩ "cp a b"
      (some ["/tmp/ok"])).1 = some ["/tmp/ok", "/home/user"] :=
  home_appended_in_place ⟨"/home/user", "/home/user"⟩ "cp a b" ["/tmp/ok"]
    (by decide) (by decide) (by decide)

/-- If a predicate finds nothing in the first list, searching the
concatenation searches the second list. -/
theorem find?_append_left_none {α : Type} (l1 l2 : List α) (p : α → Bool)
    (h : l1.find? p = none) : (l1 ++ l2).find? p = l2.find? p := by
  rw [List.find?_append, h, Option.none_or]

/-- C10: `ContextManager.get_context` never reports a not-found error: for an
unknown chain id it creates, stores and returns a fresh context seeded with
`approved_directories` (the directory-manager allowlist) and
`current_directory` (the working directory), and any subsequent
`get_context` for the same id returns that same stored context, regardless of
the collaborator environment at that later time. -/
theorem get_context_creates (env env2 : CollabEnv) (m : ContextManager) (cid : String)
    (h : m.contexts.find? (fun p => p.1 = cid) = none) :
    ContextManager.get_context env m cid =
      (⟨m.contexts ++ [(cid, initialize_default_context env cid)]⟩,
        initialize_default_context env cid) ∧
    (initialize_default_context env cid).lookup "approved_directories" =
      some (.strList env.allDirectories) ∧
    (initialize_default_context env cid).lookup "current_directory" =
      some (.str env.cwd) ∧
    ContextManager.get_context env2
        ⟨m.contexts ++ [(cid, initialize_default_context env cid)]⟩ cid =
      (⟨m.contexts ++ [(cid, initialize_default_context env cid)]⟩,
        initialize_default_context env cid) := by
  refine ⟨?_, rfl, rfl, ?_⟩
  · unfold ContextManager.get_context
    rw [h]
    rfl
  · unfold ContextManager.get_context
    rw [find?_append_left_none _ _ _ h]
    simp

/-- Witness for C10 with an empty registry and a concrete environment. -/
theorem get_context_creates_witness :
    ContextManager.get_context ⟨["/docs"], "/cwd"⟩ ⟨[]⟩ "chain_1" =
      (⟨[("chain_1", initialize_default_context ⟨["/docs"], "/cwd"⟩ "chain_1")]⟩,
        initialize_default_context ⟨["/docs"], "/cwd"⟩ "chain_1") ∧
    (initialize_default_context ⟨["/docs"], "/cwd"⟩ "chain_1").lookup
      "approved_directories" = some (.strList ["/docs"]) ∧
    ContextManager.get_context ⟨["/other"], "/elsewhere"⟩
        ⟨[("chain_1", initialize_default_context ⟨["/docs"], "/cwd"⟩ "chain_1")]⟩ "chain_1" =
      (⟨[("chain_1", initialize_default_context ⟨["/docs"], "/cwd"⟩ "chain_1")]⟩,
        initialize_default_context ⟨["/docs"], "/cwd"⟩ "chain_1") := by
  have h := get_context_creates ⟨["/docs"], "/cwd"⟩ ⟨["/other"], "/elsewhere"⟩ ⟨[]⟩ "chain_1"
    (by decide)
  exact ⟨h.1, h.2.1, h.2.2.2⟩

/-! Sample search state for the C7 counterexample and witness: a store with
two registered directories, each indexed. -/

/-- Sample indexed file under `/d1`. -/
def c7file1 : FileInfo := ⟨"alpha.txt", "/d1/alpha.txt", "document", 10, "2024-01-01"⟩

/-- Sample indexed file under `/d2`. -/
def c7file2 : FileInfo := ⟨"report.pdf", "/d2/report.pdf", "document", 20, "2024-01-02"⟩

/-- Snapshot of `/d1`. -/
def c7d1 : DirIndex := ⟨"/d1", [c7file1], [⟨"/d1"⟩]⟩

/-- Snapshot of `/d2`. -/
def c7d2 : DirIndex := ⟨"/d2", [c7file2], [⟨"/d2"⟩]⟩

/-- Sample indexer state carrying both snapshots. -/
def c7index : IndexerState := [("/d1", c7d1), ("/d2", c7d2)]

/-- Sample vector-store configuration: store `docs` registers both
directories. -/
def c7fs : FileSearchState := ⟨[("docs", ⟨"vs_1", ["/d1", "/d2"]⟩)]⟩

/-- Sample collaborator environment for the search. -/
def c7env : CollabEnv := ⟨[], "/"⟩

/-- C7 counterexample: the store `docs` registers `/d1` and `/d2`, the file
`report.pdf` lives under the registered directory `/d2` and its name contains
the query `report`, yet the search returns an empty result set (the
not-found prose): only the first registered directory's snapshot is ever
consulted, so results are not drawn from "the directories registered to that
store". -/
theorem search_first_directory_only_counterexample :
    (c7fs.vector_stores.find? (fun p => p.1 = "docs")).map (fun p => p.2.directories) =
      some ["/d1", "/d2"] ∧
    (get_directory_index c7env c7index "/d2").map (fun d => d.files.map (fun f => f.name)) =
      some ["report.pdf"] ∧
    pyIn (lowerStr "report") (lowerStr "report.pdf") = true ∧
    searchResults c7env c7index c7fs "report" "docs" = [] ∧
    search c7env c7index c7fs "report" "docs" 5 =
      .success (resultText "report" [] ["/d1", "/d2"]) "docs" := by decide

/-- C7 (amended): `search` errors on an unknown store; on a known store it
returns success wrapping the prose rendering of its result set, where the
result set is computed from the *first* registered directory's index
snapshot only — the files of that snapshot whose names contain the query
case-insensitively, or, when none match, the files (from that same snapshot)
whose paths extend any snapshot directory record whose path contains the
query case-insensitively. -/
theorem search_behavior (env : CollabEnv) (ix : IndexerState) (fs : FileSearchState)
    (query store : String) (maxResults : Nat) :
    ((fs.vector_stores.find? (fun p => p.1 = store)) = none →
      search env ix fs query store maxResults =
        .err ("Vector store not found: " ++ store)) ∧
    (∀ info, (fs.vector_stores.find? (fun p => p.1 = store)).map (fun p => p.2) = some info →
      search env ix fs query store maxResults =
        .success (resultText query (searchResults env ix fs query store) info.directories)
          store ∧
      (∀ d0 dirIndex, info.directories.head? = some d0 →
        get_directory_index env ix d0 = some dirIndex →
        ((dirIndex.files.any (fun f => pyIn (lowerStr query) (lowerStr f.name)) = true →
          searchResults env ix fs query store =
            dirIndex.files.filter (fun f => pyIn (lowerStr query) (lowerStr f.name))) ∧
        (dirIndex.files.all (fun f => !pyIn (lowerStr query) (lowerStr f.name)) = true →
          searchResults env ix fs query store =
            (dirIndex.directories.filter
              (fun d => pyIn (lowerStr query) (lowerStr d.path))).flatMap
              (fun d => dirIndex.files.filter (fun f => pyStartsWith f.path d.path)))))) := by
  constructor
  · intro h
    simp [search, h]
  · intro info hinfo
    constructor
    · simp [search, hinfo]
    · intro d0 dirIndex hd0 hidx
      constructor
      · intro hany
        have hne : (dirIndex.files.filter
            (fun f => pyIn (lowerStr query) (lowerStr f.name))).isEmpty = false := by
          obtain ⟨x, hx, hpx⟩ := List.any_eq_true.mp hany
          have hmem : x ∈ dirIndex.files.filter
              (fun f => pyIn (lowerStr query) (lowerStr f.name)) :=
            List.mem_filter.mpr ⟨hx, hpx⟩
          cases hfe : dirIndex.files.filter
              (fun f => pyIn (lowerStr query) (lowerStr f.name)) with
          | nil => rw [hfe] at hmem; cases hmem
          | cons a t => rfl
        simp [searchResults, hinfo, hd0, hidx, hne]
      · intro hall
        have hnil : dirIndex.files.filter
            (fun f => pyIn (lowerStr query) (lowerStr f.name)) = [] := by
          rw [List.filter_eq_nil_iff]
          intro a ha
          rw [List.all_eq_true] at hall
          simpa using hall a ha
        simp [searchResults, hinfo, hd0, hidx, hnil]

/-- Witness for C7 (amended): an unknown store errors; the query `alpha` on
store `docs` succeeds with exactly the name-matching file of the first
registered directory's snapshot. -/
theorem search_behavior_witness :
    search c7env c7index c7fs "x" "nope" 5 = .err ("Vector store not found: " ++ "nope") ∧
    search c7env c7index c7fs "alpha" "docs" 5 =
      .success (resultText "alpha" (searchResults c7env c7index c7fs "alpha" "docs")
        ["/d1", "/d2"]) "docs" ∧
    searchResults c7env c7index c7fs "alpha" "docs" = [c7file1] := by
  refine ⟨(search_behavior c7env c7index c7fs "x" "nope" 5).1 (by decide), ?_, ?_⟩
  · exact ((search_behavior c7env c7index c7fs "alpha" "docs" 5).2
      ⟨"vs_1", ["/d1", "/d2"]⟩ (by decide)).1
  · have h2 := ((((search_behavior c7env c7index c7fs "alpha" "docs" 5).2
      ⟨"vs_1", ["/d1", "/d2"]⟩ (by decide)).2) "/d1" c7d1 (by decide) (by decide)).1 (by decide)
    rw [h2]
    decide

/-- A recorded step result succeeds exactly when the outcome did not fail. -/
theorem stepResultOf_success (o : StepOutcome) :
    (stepResultOf o).success = !stepFails o := by
  cases o with
  | ok r => simp [stepResultOf, stepFails]
  | raises m => simp [stepResultOf, stepFails]

/-- The execution loop records, at position `i`, the original step completed
with the `i`-th outcome's result. -/
theorem runSteps_getElem? (steps : List ReasoningStep) (oc : Nat → StepOutcome) (i : Nat) :
    (runSteps steps oc)[i]? = steps[i]?.map (fun s0 => completedStepOf s0 (oc i)) := by
  simp only [runSteps, List.getElem?_map, List.getElem?_enum]
  cases steps[i]? <;> simp

/-- The execution loop preserves the number of steps. -/
theorem runSteps_length (steps : List ReasoningStep) (oc : Nat → StepOutcome) :
    (runSteps steps oc).length = steps.length := by
  simp [runSteps]

/-- The chain object after `run_reasoning_chain` finishes. -/
def completedChain (chain : ReasoningChain) (outcomes : Nat → StepOutcome)
    (final : Option String) : ReasoningChain :=
  { chain with
    steps := runSteps chain.steps outcomes
    current_step_idx := chain.steps.length
    is_completed := true
    final_response := final }

/-- C2: a step execution that raises (or returns a failure) does not abort
the chain: `run_reasoning_chain` still executes every step, records the
raise as that step's result with `success=false` and the error message, marks
the chain completed, and synthesizes a final response naming the 1-based
indices of all failed steps followed by the first encountered error
message. -/
theorem step_failures_tolerated (e : Engine) (cid : String) (chain : ReasoningChain)
    (outcomes : Nat → StepOutcome)
    (hch : e.get_chain cid = some chain)
    (hfr : chain.final_response = none)
    (hfail : ∃ i, i < chain.steps.length ∧ stepFails (outcomes i) = true) :
    ∃ final,
      run_reasoning_chain e cid outcomes =
        .ok (Engine.setChain e cid (completedChain chain outcomes (some final)), final) ∧
      (∀ j, j < chain.steps.length → ∃ s0, chain.steps[j]? = some s0 ∧
        (runSteps chain.steps outcomes)[j]? = some (completedStepOf s0 (outcomes j))) ∧
      (∀ j msg, outcomes j = .raises msg → stepResultOf (outcomes j) =
        ⟨false, "Error ejecutando paso: " ++ msg, some (some msg), []⟩) ∧
      final =
        "No pude completar tu solicitud. Hubo problemas en los pasos " ++
        joinSep ", " ((failedIndices (runSteps chain.steps outcomes)).map toString) ++
        ".\n\n" ++ "Error: " ++ firstError (runSteps chain.steps outcomes) := by
  obtain ⟨i, hi, hf⟩ := hfail
  have hs0 : chain.steps[i]? = some chain.steps[i] := List.getElem?_eq_getElem hi
  have hri : (runSteps chain.steps outcomes)[i]? =
      some (completedStepOf chain.steps[i] (outcomes i)) := by
    rw [runSteps_getElem?, hs0]
    rfl
  have hmem : completedStepOf chain.steps[i] (outcomes i) ∈ runSteps chain.steps outcomes :=
    List.getElem?_mem hri
  have hfailsi :
      ((completedStepOf chain.steps[i] (outcomes i)).is_completed &&
       !stepSuccess (completedStepOf chain.steps[i] (outcomes i))) = true := by
    simp [completedStepOf, stepSuccess, stepResultOf_success, hf]
  have hAS : allSuccess (runSteps chain.steps outcomes) = false := by
    cases hA : allSuccess (runSteps chain.steps outcomes) with
    | false => rfl
    | true =>
      exfalso
      rw [allSuccess, List.all_eq_true] at hA
      have h2 := hA _ hmem
      simp [completedStepOf, stepSuccess, stepResultOf_success, hf] at h2
  have hmemFI : (i + 1) ∈ failedIndices (runSteps chain.steps outcomes) := by
    rw [failedIndices]
    apply List.mem_map.mpr
    refine ⟨(i, completedStepOf chain.steps[i] (outcomes i)), ?_, rfl⟩
    apply List.mem_filter.mpr
    refine ⟨?_, hfailsi⟩
    apply List.getElem?_mem (n := i)
    rw [List.getElem?_enum, hri]
    rfl
  have hFI : (failedIndices (runSteps chain.steps outcomes)).isEmpty = false := by
    cases hE : failedIndices (runSteps chain.steps outcomes) with
    | nil => rw [hE] at hmemFI; cases hmemFI
    | cons a t => rfl
  have hsynth : synthesize chain.query (runSteps chain.steps outcomes) =
      .ok ("No pude completar tu solicitud. Hubo problemas en los pasos " ++
        joinSep ", " ((failedIndices (runSteps chain.steps outcomes)).map toString) ++
        ".\n\n" ++ "Error: " ++ firstError (runSteps chain.steps outcomes)) := by
    unfold synthesize
    rw [hAS]
    simp only [Bool.false_eq_true, if_false, hFI, Bool.not_false, if_true]
  refine ⟨_, ?_, ?_, ?_, rfl⟩
  · unfold run_reasoning_chain
    rw [hch]
    simp only [hfr, Option.getD_none, if_pos, hsynth]
    rfl
  · intro j hj
    have hsj : chain.steps[j]? = some chain.steps[j] := List.getElem?_eq_getElem hj
    refine ⟨chain.steps[j], hsj, ?_⟩
    rw [runSteps_getElem?, hsj]
    rfl

  · intro j msg hmsg
    rw [hmsg]
    rfl

/-- Sample planned step for the C2 witness. -/
def c2step (i : Nat) : ReasoningStep := ⟨i, "paso", none, none, "\x7b\x7d", false, none, false⟩

/-- Sample three-step chain for the C2 witness. -/
def c2chain : ReasoningChain := ⟨"organiza", [c2step 0, c2step 1, c2step 2], 0, false, none⟩

/-- Sample engine holding the C2 witness chain. -/
def c2engine : Engine := [("c1", c2chain)]

/-- Sample outcomes: the middle step raises, the others succeed. -/
def c2outcomes : Nat → StepOutcome := fun i =>
  if i = 1 then .raises "boom" else .ok ⟨true, "done", none, []⟩

/-- Witness for C2: with the middle of three steps raising `boom`, the chain
still completes and the final response names step 2 and the error. -/
theorem step_failures_tolerated_witness :
    (run_reasoning_chain c2engine "c1" c2outcomes).map (fun p => p.2) =
      .ok "No pude completar tu solicitud. Hubo problemas en los pasos 2.\n\nError: boom" := by
  obtain ⟨final, h1, _, _, h4⟩ := step_failures_tolerated c2engine "c1" c2chain c2outcomes
    (by decide) rfl ⟨1, by decide, by decide⟩
  rw [h1]
  simp only [Except.map]
  rw [h4]
  decide

/-! ## C3: the engine's step progression -/

/-- Applying `ReasoningEngine.execute_step` `k` times, feeding `rs 0`,
`rs 1`, … in order. -/
def iterateExec (e : Engine) (cid : String) (rs : Nat → StepResult) : Nat → Engine
  | 0 => e
  | k + 1 => (Engine.execute_step (iterateExec e cid rs k) cid (rs k)).1

/-- The step list of a chain planned from `ps` after the first `k` steps have
been executed with results `rs`. -/
def stepsAt (ps : List PlanStep) (rs : Nat → StepResult) (k : Nat) : List ReasoningStep :=
  ps.enum.map
    (fun p => if p.1 < k then completedStep p.1 p.2 (rs p.1) else plannedStep p.1 p.2)

/-- The chain state after `k` of the planned steps have been executed: the
first `k` steps carry their results, the cursor sits at `k`, and the chain is
completed exactly when at least one call happened and all steps are done. -/
def execChainState (query : String) (ps : List PlanStep) (rs : Nat → StepResult)
    (k : Nat) : ReasoningChain :=
  ⟨query, stepsAt ps rs k, k, decide (0 < k) && decide (ps.length ≤ k), none⟩

/-- `stepsAt` keeps the plan's length. -/
theorem stepsAt_length (ps : List PlanStep) (rs : Nat → StepResult) (k : Nat) :
    (stepsAt ps rs k).length = ps.length := by
  simp [stepsAt]

/-- Folding `add_step` over a plan appends freshly planned steps with
sequential ids starting at the current length. -/
theorem foldl_add_step (ps : List PlanStep) (c : ReasoningChain) :
    ps.foldl ReasoningChain.add_step c =
      { c with steps :=
          (c.steps ++ (ps.enumFrom c.steps.length).map (fun p => plannedStep p.1 p.2)) } := by
  induction ps generalizing c with
  | nil => simp
  | cons p t ih =>
    rw [List.foldl_cons, ih]
    simp [ReasoningChain.add_step, List.append_assoc]

/-- Creating and planning a chain yields the singleton registry holding the
zero-executed state. -/
theorem planned_engine (query cid : String) (ps : List PlanStep) (rs : Nat → StepResult) :
    Engine.plan (Engine.create_chain [] cid query) cid ps =
      [(cid, execChainState query ps rs 0)] := by
  have hg : Engine.get_chain ([] ++ [(cid, ReasoningChain.mk0 query)]) cid =
      some (ReasoningChain.mk0 query) := by
    simp [Engine.get_chain]
  have hfold : ps.foldl ReasoningChain.add_step (ReasoningChain.mk0 query) =
      ⟨query, (ps.enumFrom 0).map (fun p => plannedStep p.1 p.2), 0, false, none⟩ := by
    rw [foldl_add_step]
    rfl
  have hsteps0 : (ps.enumFrom 0).map (fun p => plannedStep p.1 p.2) = stepsAt ps rs 0 := by
    apply List.ext_getElem?
    intro j
    simp only [stepsAt, List.getElem?_map, List.getElem?_enumFrom, List.getElem?_enum]
    cases ps[j]? <;> simp
  have h00 : (decide (0 < 0) && decide (ps.length ≤ 0)) = false := by simp
  unfold Engine.plan Engine.create_chain
  rw [hg]
  simp only [hfold, hsteps0]
  simp [Engine.setChain, execChainState, h00]

/-- Recording the `k`-th result in the `k`-executed step list yields the
`(k+1)`-executed step list. -/
theorem modify_stepsAt (ps : List PlanStep) (rs : Nat → StepResult) (k : Nat) :
    List.modify (fun s => { s with result := some (rs k), is_completed := true }) k
      (stepsAt ps rs k) = stepsAt ps rs (k + 1) := by
  apply List.ext_getElem?
  intro j
  rw [List.getElem?_modify]
  simp only [stepsAt, List.getElem?_map, List.getElem?_enum]
  cases hj : ps[j]? with
  | none => rfl
  | some q =>
    simp only [Option.map_eq_map, Option.map_some']
    by_cases hjk : k = j
    · subst hjk
      simp [Nat.lt_irrefl, Nat.lt_succ_self, completedStep, plannedStep]
    · have hiff : j < k ↔ j < k + 1 := by
        constructor
        · exact fun h => Nat.lt_succ_of_lt h
        · intro h
          rcases Nat.lt_succ_iff_lt_or_eq.mp h with h' | h'
          · exact h'
          · exact absurd h'.symm hjk
      by_cases hjlt : j < k
      · simp [hjk, hjlt, hiff.mp hjlt]
      · have hnlt : ¬ j < k + 1 := fun h => hjlt (hiff.mpr h)
        simp [hjk, hjlt, hnlt]

/-- One `execute_step` on the `k`-executed state (for a genuine step index
`k`) records the `k`-th result and advances to the `(k+1)`-executed state. -/
theorem exec_step_chain (cid query : String) (ps : List PlanStep) (rs : Nat → StepResult)
    (k : Nat) (hk : k < ps.length) :
    (Engine.execute_step [(cid, execChainState query ps rs k)] cid (rs k)).1 =
      [(cid, execChainState query ps rs (k + 1))] := by
  have hg : Engine.get_chain [(cid, execChainState query ps rs k)] cid =
      some (execChainState query ps rs k) := by
    simp [Engine.get_chain]
  have hpk : ps[k]? = some ps[k] := List.getElem?_eq_getElem hk
  have hcur : (execChainState query ps rs k).get_current_step =
      some (plannedStep k ps[k]) := by
    unfold ReasoningChain.get_current_step execChainState stepsAt
    simp [List.getElem?_map, List.getElem?_enum, hpk]
  have hadv : ((execChainState query ps rs k).setCurrentResult (rs k)).advance.1 =
      execChainState query ps rs (k + 1) := by
    unfold ReasoningChain.setCurrentResult ReasoningChain.advance
    simp only [execChainState, modify_stepsAt ps rs k, stepsAt_length]
    by_cases hle : ps.length ≤ k + 1
    · rw [if_pos hle]
      have e1 : decide (0 < k + 1) = true := decide_eq_true (Nat.succ_pos k)
      have e2 : decide (ps.length ≤ k + 1) = true := decide_eq_true hle
      simp [e1, e2]
    · rw [if_neg hle]
      have h1 : ¬ ps.length ≤ k := fun h => hle (Nat.le_succ_of_le h)
      have e2 : decide (ps.length ≤ k + 1) = false := decide_eq_false hle
      have e3 : decide (ps.length ≤ k) = false := decide_eq_false h1
      simp [e2, e3]
  unfold Engine.execute_step
  rw [hg]
  simp only [hcur, hadv]
  simp [Engine.setChain]

/-- After `k ≤ N` calls the planned engine holds exactly the `k`-executed
state. -/
theorem iter_state (cid query : String) (ps : List PlanStep) (rs : Nat → StepResult) :
    ∀ k, k ≤ ps.length →
      iterateExec (Engine.plan (Engine.create_chain [] cid query) cid ps) cid rs k =
        [(cid, execChainState query ps rs k)]
  | 0, _ => planned_engine query cid ps rs
  | k + 1, hk => by
    rw [iterateExec, iter_state cid query ps rs k (Nat.le_of_succ_le hk)]
    exact exec_step_chain cid query ps rs k (Nat.lt_of_succ_le hk)

/-- C3: from `create_chain` followed by planning `N` steps, `execute_step`
called exactly `N` times advances `current_step_idx` from 0 through `N`,
assigning each step its result and completing them in order, with
`is_completed` becoming true after the `N`-th call; an `(N+1)`-th call
returns the `No current step` error and leaves the registry (hence the
chain) unchanged. -/
theorem engine_step_progression (query cid : String) (ps : List PlanStep)
    (rs : Nat → StepResult) :
    (∀ k, k ≤ ps.length →
      ∃ c, (iterateExec (Engine.plan (Engine.create_chain [] cid query) cid ps)
          cid rs k).get_chain cid = some c ∧
        c.current_step_idx = k ∧
        c.is_completed = (decide (0 < k) && decide (ps.length ≤ k)) ∧
        (∀ i, i < k → (hi : i < ps.length) →
          c.steps[i]? = some (completedStep i ps[i] (rs i))) ∧
        (∀ i, k ≤ i → (hi : i < ps.length) →
          c.steps[i]? = some (plannedStep i ps[i]))) ∧
    (∀ r, Engine.execute_step
        (iterateExec (Engine.plan (Engine.create_chain [] cid query) cid ps)
          cid rs ps.length) cid r =
      (iterateExec (Engine.plan (Engine.create_chain [] cid query) cid ps)
          cid rs ps.length,
       .err "No current step")) := by
  constructor
  · intro k hk
    rw [iter_state cid query ps rs k hk]
    refine ⟨execChainState query ps rs k, by simp [Engine.get_chain], rfl, rfl, ?_, ?_⟩
    · intro i hik hilen
      have hpi : ps[i]? = some ps[i] := List.getElem?_eq_getElem hilen
      simp [execChainState, stepsAt, List.getElem?_map, List.getElem?_enum, hpi, hik]
    · intro i hki hilen
      have hpi : ps[i]? = some ps[i] := List.getElem?_eq_getElem hilen
      have : ¬ i < k := fun h => absurd (Nat.lt_of_lt_of_le h hki) (Nat.lt_irrefl i)
      simp [execChainState, stepsAt, List.getElem?_map, List.getElem?_enum, hpi, this]
  · intro r
    rw [iter_state cid query ps rs ps.length (Nat.le_refl _)]
    have hg : Engine.get_chain [(cid, execChainState query ps rs ps.length)] cid =
        some (execChainState query ps rs ps.length) := by
      simp [Engine.get_chain]
    have hnone : (execChainState query ps rs ps.length).get_current_step = none := by
      unfold ReasoningChain.get_current_step
      apply List.getElem?_eq_none
      simp [execChainState, stepsAt_length]
    unfold Engine.execute_step
    rw [hg]
    simp only [hnone]

/-- Sample two-step plan for the C3 witness. -/
def c3ps : List PlanStep :=
  [⟨"buscar archivos", some "search_files", none, "\x7b\x7d", false⟩,
   ⟨"mover archivos", some "execute_commands", some ["mv a b"], "\x7b...\x7d", true⟩]

/-- Sample step results for the C3 witness. -/
def c3rs : Nat → StepResult := fun _ => ⟨true, "ok", none, []⟩

/-- Witness for C3 on a two-step plan: after two `execute_step` calls the
cursor is 2 and the chain is completed; a third call errors with
`No current step` and leaves the engine unchanged. -/
theorem engine_step_progression_witness :
    (∃ c, (iterateExec (Engine.plan (Engine.create_chain [] "c1" "organiza") "c1" c3ps)
        "c1" c3rs 2).get_chain "c1" = some c ∧
      c.current_step_idx = 2 ∧ c.is_completed = true) ∧
    Engine.execute_step
        (iterateExec (Engine.plan (Engine.create_chain [] "c1" "organiza") "c1" c3ps)
          "c1" c3rs 2) "c1" (c3rs 9) =
      (iterateExec (Engine.plan (Engine.create_chain [] "c1" "organiza") "c1" c3ps)
          "c1" c3rs 2,
       .err "No current step") := by
  have h := engine_step_progression "organiza" "c1" c3ps c3rs
  constructor
  · obtain ⟨c, hc, h1, h2, _, _⟩ := h.1 2 (by decide)
    exact ⟨c, hc, h1, by rw [h2]; decide⟩
  · exact h.2 (c3rs 9)

end Merlin

